import Mathlib

/-!
Verification development for the-sentinel (Warden), a TypeScript autonomous
remediation pipeline.  The definitions below are a shallow embedding of the
relevant source functions:

  * src/agents/engineer/index.ts   (EngineerAgent: prioritization, diagnosis,
    canAttemptFix, applyFix)
  * src/agents/engineer/git.ts     (GitManager: checkoutBranch, revertChanges,
    stageAll, commit)
  * src/agents/watchman/snyk.ts    (SnykScanner: retryWithBackoff, test,
    parseSnykOutput, saveScanResults, validateScanResult, filterHighPriority)
  * src/agents/watchman/npm-audit.ts (NpmAuditScanner: formatVulnerabilities,
    parseAuditOutput, scan)
  * src/agents/watchman/index.ts   (mergeDastResults)
  * src/orchestrator.ts            (runSecurityScan, orchestrateFix)

JavaScript runtime behaviour is modelled explicitly: machine numbers are Rat,
`undefined` is Option.none, JSON documents are a Json AST, and the
implementation-defined stable Array.prototype.sort is modelled as a stable
insertion sort with the ECMAScript SortCompare rule (a comparator result of
NaN is treated as +0, which happens when cvssScore is undefined on either
side of the subtraction).
-/

namespace Sentinel

/-- Severity tier, the four-valued union type used across the code base. -/
inductive Severity where
  | critical
  | high
  | medium
  | low
deriving DecidableEq, Repr

/-- SEVERITY_PRIORITY table from src/agents/engineer/index.ts
(critical 4, high 3, medium 2, low 1). -/
def severityPriority : Severity → ℚ
  | .critical => 4
  | .high => 3
  | .medium => 2
  | .low => 1

/-- The toUpperCase rendering of a severity, used in diagnosis descriptions. -/
def severityUpper : Severity → String
  | .critical => "CRITICAL"
  | .high => "HIGH"
  | .medium => "MEDIUM"
  | .low => "LOW"

/-- Normalized vulnerability record (Vulnerability from src/types.ts merged
with the engineer agent interface).  `cvssScore` is optional, as in
src/types.ts and src/agents/watchman/snyk.ts; a missing score is JavaScript
`undefined`.  The DAST-specific attributes used by the merge path are kept. -/
structure Vuln where
  id : String
  title : String
  severity : Severity
  packageName : String
  version : String
  fixedIn : List String
  description : String
  cvssScore : Option ℚ
  targetHost : Option String
  targetPort : Option Nat
deriving DecidableEq, Repr

/-- The sort comparator of EngineerAgent.prioritizeVulnerabilities:
`SEVERITY_PRIORITY[b.severity] - SEVERITY_PRIORITY[a.severity]`, falling back
to `b.cvssScore - a.cvssScore`.  When either cvssScore is undefined the
JavaScript subtraction yields NaN, which the ECMAScript SortCompare rule
maps to +0; that case is therefore modelled as 0. -/
def compareVulns (a b : Vuln) : ℚ :=
  let d := severityPriority b.severity - severityPriority a.severity
  if d ≠ 0 then d
  else
    match b.cvssScore, a.cvssScore with
    | some sb, some sa => sb - sa
    | _, _ => 0

/-- Keep `a` before `b` exactly when the comparator does not order `b` first. -/
def vulnLE (a b : Vuln) : Bool := decide (compareVulns a b ≤ 0)

/-- Stable insertion of one element, the building block of the model of
Array.prototype.sort (whose concrete algorithm is implementation-defined;
any stable conforming algorithm may be chosen for the embedding). -/
def orderedInsertVuln (a : Vuln) : List Vuln → List Vuln
  | [] => [a]
  | b :: l => if vulnLE a b then a :: b :: l else b :: orderedInsertVuln a l

/-- EngineerAgent.prioritizeVulnerabilities:
`[...vulnerabilities].sort(comparator)` as a stable sort. -/
def prioritizeVulnerabilities : List Vuln → List Vuln
  | [] => []
  | a :: l => orderedInsertVuln a (prioritizeVulnerabilities l)

/-- EngineerAgent.canAttemptFix: `vuln.fixedIn && vuln.fixedIn.length > 0`. -/
def canAttemptFix (v : Vuln) : Bool := decide (0 < v.fixedIn.length)

/-- Diagnosis record produced by EngineerAgent.diagnose. -/
structure Diagnosis where
  vulnerabilityId : String
  description : String
  suggestedFix : String
  filesToModify : List String
deriving DecidableEq, Repr

/-- One SAST diagnosis, as built in EngineerAgent.diagnose.  With an empty
fixedIn list the template literal `vuln.fixedIn[0]` interpolates the
JavaScript string "undefined", modelled by `List.headD`. -/
def mkDiagnosis (v : Vuln) : Diagnosis :=
  { vulnerabilityId := v.id
    description := v.title ++ " in " ++ v.packageName ++ "@" ++ v.version ++
      " (" ++ severityUpper v.severity ++ ")"
    suggestedFix := "Update " ++ v.packageName ++ " from " ++ v.version ++
      " to " ++ v.fixedIn.headD "undefined"
    filesToModify := ["package.json"] }

/-- EngineerAgent.diagnose in SAST mode: prioritize, then map every
vulnerability to a diagnosis (no filtering of any kind happens here). -/
def diagnoseSast (vulns : List Vuln) : List Diagnosis :=
  (prioritizeVulnerabilities vulns).map mkDiagnosis

/-- The fix target chosen by EngineerAgent.run: `diagnoses[0]`. -/
def engineerRunTarget (vulns : List Vuln) : Option Diagnosis :=
  (diagnoseSast vulns).head?

/-- SnykScanner.filterHighPriority: keep only critical and high findings. -/
def filterHighPriority (vulns : List Vuln) : List Vuln :=
  vulns.filter fun v => decide (v.severity = .critical ∨ v.severity = .high)

/-- Outcome of orchestrateFix in src/orchestrator.ts, up to the point where
the Engineer is (or is not) invoked. -/
inductive FixOrchestration where
  | cleanAudit
  | noDiagnoses
  | attempted (target : Diagnosis)
deriving DecidableEq, Repr

/-- orchestrateFix: report a clean audit and return when filterHighPriority
is empty; otherwise diagnose and target `diagnoses[0]`.  The diagnose call
reads the saved scan-results.json, which holds the same vulnerability list. -/
def orchestrateFixModel (vulns : List Vuln) : FixOrchestration :=
  if filterHighPriority vulns = [] then .cleanAudit
  else
    match diagnoseSast vulns with
    | [] => .noDiagnoses
    | d :: _ => .attempted d

/-- Identifier of the selected fix target, if any. -/
def targetIdOf : FixOrchestration → Option String
  | .cleanAudit => none
  | .noDiagnoses => none
  | .attempted d => some d.vulnerabilityId

/-- Replace the remediated-version list of a finding, leaving every other
attribute unchanged. -/
def withFixedIn (v : Vuln) (l : List String) : Vuln := { v with fixedIn := l }

/-- Adjacent-pair ordering guaranteed by the Prioritizer: the severity tier of
the former is at least that of the latter, and within an equal tier, whenever
both findings carry a numeric risk score, the former score is at least the
latter score. -/
def sortedAfter (a b : Vuln) : Prop :=
  severityPriority b.severity ≤ severityPriority a.severity ∧
  (a.severity = b.severity →
    ∀ x y, a.cvssScore = some x → b.cvssScore = some y → y ≤ x)

theorem sortedAfter_of_le {a b : Vuln} (h : vulnLE a b = true) : sortedAfter a b := by
  have hc : compareVulns a b ≤ 0 := of_decide_eq_true h
  unfold compareVulns at hc
  by_cases hd : severityPriority b.severity - severityPriority a.severity ≠ 0
  · rw [if_pos hd] at hc
    refine ⟨by linarith [hc], ?_⟩
    intro hsev
    exact absurd (by rw [hsev]; ring) hd
  · rw [if_neg hd] at hc
    push_neg at hd
    refine ⟨by linarith [sub_eq_zero.mp hd], ?_⟩
    intro _ x y hx hy
    rw [hx, hy] at hc
    simpa using hc

theorem sortedAfter_of_not_le {a b : Vuln} (h : vulnLE a b = false) : sortedAfter b a := by
  have hc : ¬ compareVulns a b ≤ 0 := of_decide_eq_false h
  push_neg at hc
  unfold compareVulns at hc
  by_cases hd : severityPriority b.severity - severityPriority a.severity ≠ 0
  · rw [if_pos hd] at hc
    refine ⟨by linarith [hc], ?_⟩
    intro hsev
    exact absurd (by rw [hsev]; ring) hd
  · rw [if_neg hd] at hc
    push_neg at hd
    refine ⟨by linarith [sub_eq_zero.mp hd], ?_⟩
    intro _ x y hx hy
    rw [hx, hy] at hc
    have : (0 : ℚ) < x - y := by simpa using hc
    linarith

theorem chain'_orderedInsertVuln (a : Vuln) :
    ∀ l : List Vuln, List.Chain' sortedAfter l →
      List.Chain' sortedAfter (orderedInsertVuln a l) := by
  intro l
  induction l with
  | nil => intro _; simp [orderedInsertVuln]
  | cons b l2 ih =>
    intro hch
    unfold orderedInsertVuln
    by_cases hle : vulnLE a b
    · rw [if_pos hle]
      exact List.Chain'.cons (sortedAfter_of_le hle) hch
    · rw [if_neg hle]
      have hle2 : vulnLE a b = false := by simpa using hle
      have htail : List.Chain' sortedAfter l2 := hch.tail
      refine List.chain'_cons'.mpr ⟨?_, ih htail⟩
      intro y hy
      cases l2 with
      | nil =>
        simp [orderedInsertVuln] at hy
        subst hy
        exact sortedAfter_of_not_le hle2
      | cons c l3 =>
        unfold orderedInsertVuln at hy
        by_cases hlc : vulnLE a c
        · rw [if_pos hlc] at hy
          simp at hy
          subst hy
          exact sortedAfter_of_not_le hle2
        · rw [if_neg hlc] at hy
          simp at hy
          subst hy
          exact (List.chain'_cons.mp hch).1

/-- C6 — For every input finding list, the output of
EngineerAgent.prioritizeVulnerabilities is sorted at every adjacent pair: the
severity tier of the former is at least that of the latter (critical > high >
medium > low via SEVERITY_PRIORITY), and within an equal tier, whenever both
findings carry a numeric risk score, the score of the former is at least the
score of the latter.  This holds for all inputs, including those where some
findings lack a risk score (an undefined cvssScore makes the comparator
return NaN, which the ECMAScript SortCompare rule treats as a tie). -/
theorem prioritize_output_sorted (vulns : List Vuln) :
    List.Chain' sortedAfter (prioritizeVulnerabilities vulns) := by
  induction vulns with
  | nil => simp [prioritizeVulnerabilities]
  | cons a l ih => exact chain'_orderedInsertVuln a _ ih

theorem compareVulns_withFixedIn (g : Vuln → List String) (a b : Vuln) :
    compareVulns (withFixedIn a (g a)) (withFixedIn b (g b)) = compareVulns a b := rfl

theorem orderedInsertVuln_map_withFixedIn (g : Vuln → List String) (a : Vuln) :
    ∀ l : List Vuln,
      orderedInsertVuln (withFixedIn a (g a)) (l.map fun v => withFixedIn v (g v))
        = (orderedInsertVuln a l).map fun v => withFixedIn v (g v) := by
  intro l
  induction l with
  | nil => rfl
  | cons b l2 ih =>
    show orderedInsertVuln _ (withFixedIn b (g b) :: _) = _
    unfold orderedInsertVuln
    have he : vulnLE (withFixedIn a (g a)) (withFixedIn b (g b)) = vulnLE a b := rfl
    rw [he]
    by_cases hle : vulnLE a b
    · rw [if_pos hle, if_pos hle]
      rfl
    · rw [if_neg hle, if_neg hle]
      simp [ih]

theorem prioritize_map_withFixedIn (g : Vuln → List String) :
    ∀ vulns : List Vuln,
      prioritizeVulnerabilities (vulns.map fun v => withFixedIn v (g v))
        = (prioritizeVulnerabilities vulns).map fun v => withFixedIn v (g v) := by
  intro vulns
  induction vulns with
  | nil => rfl
  | cons a l ih =>
    show prioritizeVulnerabilities (withFixedIn a (g a) :: _) = _
    unfold prioritizeVulnerabilities
    rw [ih, orderedInsertVuln_map_withFixedIn]

theorem filterHighPriority_map_withFixedIn (g : Vuln → List String) :
    ∀ vulns : List Vuln,
      filterHighPriority (vulns.map fun v => withFixedIn v (g v))
        = (filterHighPriority vulns).map fun v => withFixedIn v (g v) := by
  intro vulns
  unfold filterHighPriority
  rw [List.filter_map]
  congr 1

/-- C1 counterexample — a Finding with an empty remediated-version list IS
selected as the Remediation Engine fix target: with a single critical
vulnerability whose fixedIn is empty, `canAttemptFix` is false yet both
EngineerAgent.run and orchestrateFix select that finding as the target (its
suggested fix even interpolates the JavaScript string "undefined"), because
no code path ever calls canAttemptFix. -/
theorem empty_fixedIn_selected_as_target :
    canAttemptFix
        ⟨"SNYK-JS-LODASH-590103", "Prototype Pollution", .critical, "lodash",
          "4.17.15", [], "desc", none, none, none⟩ = false ∧
    engineerRunTarget
        [⟨"SNYK-JS-LODASH-590103", "Prototype Pollution", .critical, "lodash",
          "4.17.15", [], "desc", none, none, none⟩] =
      some (mkDiagnosis
        ⟨"SNYK-JS-LODASH-590103", "Prototype Pollution", .critical, "lodash",
          "4.17.15", [], "desc", none, none, none⟩) ∧
    orchestrateFixModel
        [⟨"SNYK-JS-LODASH-590103", "Prototype Pollution", .critical, "lodash",
          "4.17.15", [], "desc", none, none, none⟩] =
      .attempted (mkDiagnosis
        ⟨"SNYK-JS-LODASH-590103", "Prototype Pollution", .critical, "lodash",
          "4.17.15", [], "desc", none, none, none⟩) ∧
    (mkDiagnosis
        ⟨"SNYK-JS-LODASH-590103", "Prototype Pollution", .critical, "lodash",
          "4.17.15", [], "desc", none, none, none⟩).suggestedFix =
      "Update lodash from 4.17.15 to undefined" :=
  ⟨rfl, rfl, rfl, rfl⟩

/-- C1 (amended) — `canAttemptFix(f)` is true iff `f.fixedIn` is non-empty;
however the pipeline never invokes canAttemptFix: the selected fix target is
independent of the remediated-version lists, so a Finding with an empty
fixedIn can be (and, when ranked first, is) selected as the target. -/
theorem canAttemptFix_iff_and_target_ignores_fixedIn :
    (∀ v : Vuln, canAttemptFix v = true ↔ v.fixedIn ≠ []) ∧
    (∀ (vulns : List Vuln) (g : Vuln → List String),
      targetIdOf (orchestrateFixModel (vulns.map fun v => withFixedIn v (g v)))
        = targetIdOf (orchestrateFixModel vulns)) := by
  constructor
  · intro v
    unfold canAttemptFix
    rw [decide_eq_true_iff]
    exact ⟨fun h => List.ne_nil_of_length_pos h,
           fun h => List.length_pos.mpr h⟩
  · intro vulns g
    unfold orchestrateFixModel
    rw [filterHighPriority_map_withFixedIn]
    by_cases hf : filterHighPriority vulns = []
    · rw [hf]
      simp
    · rw [if_neg (by simpa using hf), if_neg hf]
      unfold diagnoseSast
      rw [prioritize_map_withFixedIn]
      cases prioritizeVulnerabilities vulns with
      | nil => rfl
      | cons v rest => rfl

/-- C10 — In the SAST path, when every finding is of severity medium or low,
orchestrateFix reports a clean audit and returns before the Engineer agent is
ever imported or invoked, regardless of the findings remediated-version
lists: the gate is SnykScanner.filterHighPriority, which looks only at
severity. -/
theorem all_medium_low_clean_audit (vulns : List Vuln)
    (h : ∀ v ∈ vulns, v.severity = .medium ∨ v.severity = .low) :
    orchestrateFixModel vulns = .cleanAudit := by
  have hf : filterHighPriority vulns = [] := by
    unfold filterHighPriority
    rw [List.filter_eq_nil_iff]
    intro v hv
    rcases h v hv with hm | hl
    · simp [hm]
    · simp [hl]
  unfold orchestrateFixModel
  rw [if_pos hf]

/-- Witness for C10 at a concrete input: a single medium finding with a
non-empty remediated-version list still yields a clean audit. -/
theorem all_medium_low_clean_audit_witness :
    (∀ v ∈ [(⟨"V-77", "t", .medium, "minimist", "1.2.0", ["1.2.6"], "d",
        none, none, none⟩ : Vuln)], v.severity = .medium ∨ v.severity = .low) ∧
    orchestrateFixModel
        [⟨"V-77", "t", .medium, "minimist", "1.2.0", ["1.2.6"], "d",
          none, none, none⟩] = .cleanAudit :=
  ⟨by decide, all_medium_low_clean_audit _ (by decide)⟩

/-! Remediation Engine: GitManager (src/agents/engineer/git.ts) and
EngineerAgent.applyFix (src/agents/engineer/index.ts).  Git and the file
system are modelled as one explicit repository state; the external commands
run by applyFix (manifest write, `npm install`, `npm test`) are modelled by a
success/failure environment.  Branch contents are not tracked separately:
the fix branch is created from the current HEAD within the same run, so all
reachable checkouts share one committed manifest. -/

/-- Parsed package.json restricted to the two sections applyFix rewrites. -/
structure Manifest where
  dependencies : List (String × String)
  devDependencies : List (String × String)
deriving DecidableEq, Repr

/-- JavaScript `obj[key] = value` on a dependency section (object keys are
unique; updating an assoc list at every matching key is equivalent). -/
def setDep (deps : List (String × String)) (pkg v : String) : List (String × String) :=
  deps.map fun p => if p.1 = pkg then (pkg, v) else p

/-- Repository state: branch list, current branch, committed (HEAD) manifest,
working-tree manifest, whether untracked build artifacts exist, and the log
of commit messages. -/
structure RepoState where
  branches : List String
  currentBranch : String
  headManifest : Manifest
  workManifest : Manifest
  untracked : Bool
  commits : List String
deriving DecidableEq, Repr

/-- The deterministic branch naming scheme of applyFix:
`warden/fix-<packageName>`. -/
def branchNameFor (packageName : String) : String := "warden/fix-" ++ packageName

/-- GitManager.checkoutBranch: no-op when already on the branch; plain
checkout when the branch exists; `git checkout -b` otherwise. -/
def checkoutBranch (st : RepoState) (name : String) : RepoState :=
  if st.currentBranch = name then st
  else if name ∈ st.branches then { st with currentBranch := name }
  else { st with branches := name :: st.branches, currentBranch := name }

/-- GitManager.revertChanges: `git checkout .` restores every tracked file
from HEAD and `git clean -fd` removes untracked files. -/
def revertChanges (st : RepoState) : RepoState :=
  { st with workManifest := st.headManifest, untracked := false }

/-- GitManager.stageAll followed by GitManager.commit: `git add .` stages
tracked modifications and untracked files, and the commit makes them HEAD. -/
def stageAndCommit (st : RepoState) (message : String) : RepoState :=
  { st with
    headManifest := st.workManifest
    untracked := false
    commits := message :: st.commits }

/-- Whitespace tokenizer used to model the applyFix regex (accumulator holds
the current word reversed). -/
def wordsAux : List Char → List Char → List String
  | [], acc => if acc = [] then [] else [String.mk acc.reverse]
  | c :: cs, acc =>
    if c = ' ' then
      (if acc = [] then wordsAux cs [] else String.mk acc.reverse :: wordsAux cs [])
    else wordsAux cs (c :: acc)

/-- Space-separated words of a string. -/
def words (s : String) : List String := wordsAux s.data []

/-- Try to match `Update <pkg> from <old> to <new>` at the head of a token
list. -/
def matchUpdateAt : List String → Option (String × String × String)
  | "Update" :: p :: "from" :: a :: "to" :: b :: _ => some (p, a, b)
  | _ => none

/-- Scan for the first occurrence of the update pattern. -/
def findUpdate : List String → Option (String × String × String)
  | [] => none
  | t :: rest =>
    match matchUpdateAt (t :: rest) with
    | some r => some r
    | none => findUpdate rest

/-- The applyFix regex
`Update\s+([^\s]+)\s+from\s+([^\s]+)\s+to\s+([^\s]+)` modelled over
space-separated tokens (the strings produced by diagnose are single-space
separated, where the token model and the regex agree). -/
def parseSuggestedFix (s : String) : Option (String × String × String) :=
  findUpdate (words s)

/-- Success or failure of the three external effects applyFix performs after
branch checkout: the manifest write (fs.writeFileSync), the dependency
install (`npm install`) and the verification run (`npm test`). -/
structure FixEnv where
  writeOk : Bool
  installOk : Bool
  testOk : Bool
deriving DecidableEq, Repr

/-- Dependency update step of applyFix: rewrite the package in
`dependencies` and in `devDependencies` when present; report whether any
section was updated. -/
def applyManifestUpdate (m : Manifest) (pkg v : String) : Manifest × Bool :=
  let hasDep := (m.dependencies.lookup pkg).isSome
  let hasDev := (m.devDependencies.lookup pkg).isSome
  let m1 := if hasDep then { m with dependencies := setDep m.dependencies pkg v } else m
  let m2 := if hasDev then { m1 with devDependencies := setDep m1.devDependencies pkg v } else m1
  (m2, hasDep || hasDev)

/-- EngineerAgent.applyFix.  A failing external command raises an exception;
the surrounding try/catch of applyFix logs it and returns false.  Only the
inner catch around `npm test` calls revertChanges.  The returned Bool is the
applyFix return value, paired with the repository state it leaves behind. -/
def applyFix (d : Diagnosis) (env : FixEnv) (st : RepoState) : Bool × RepoState :=
  match parseSuggestedFix d.suggestedFix with
  | none => (false, st)
  | some (pkg, _oldV, newV) =>
    let st1 := checkoutBranch st (branchNameFor pkg)
    let u := applyManifestUpdate st1.workManifest pkg newV
    if !u.2 then (false, st1)
    else if !env.writeOk then (false, st1)
    else
      let st2 := { st1 with workManifest := u.1 }
      if !env.installOk then (false, st2)
      else
        let st3 := { st2 with untracked := true }
        if !env.testOk then (false, revertChanges st3)
        else (true, stageAndCommit st3 ("fix(" ++ pkg ++ "): resolve " ++ d.vulnerabilityId))

/-- C9 — Branch acquisition is idempotent: the branch name derived from a
package is the deterministic string `warden/fix-<package>`, a second
checkoutBranch with the same name leaves the state unchanged, the branch
list gains the name only when it was absent (an existing branch is reused,
never duplicated and never an error), and afterwards the branch is current. -/
theorem checkoutBranch_idempotent (st : RepoState) (pkg : String) :
    checkoutBranch (checkoutBranch st (branchNameFor pkg)) (branchNameFor pkg)
        = checkoutBranch st (branchNameFor pkg) ∧
    (checkoutBranch st (branchNameFor pkg)).currentBranch = branchNameFor pkg ∧
    (checkoutBranch st (branchNameFor pkg)).branches =
      (if st.currentBranch = branchNameFor pkg then st.branches
       else if branchNameFor pkg ∈ st.branches then st.branches
       else branchNameFor pkg :: st.branches) := by
  set n := branchNameFor pkg with hn
  have hcur : (checkoutBranch st n).currentBranch = n := by
    unfold checkoutBranch
    by_cases h1 : st.currentBranch = n
    · rw [if_pos h1]; exact h1
    · rw [if_neg h1]
      by_cases h2 : n ∈ st.branches
      · rw [if_pos h2]
      · rw [if_neg h2]
  have hself : ∀ s : RepoState, s.currentBranch = n → checkoutBranch s n = s := by
    intro s h
    unfold checkoutBranch
    rw [if_pos h]
  refine ⟨hself _ hcur, hcur, ?_⟩
  unfold checkoutBranch
  by_cases h1 : st.currentBranch = n
  · rw [if_pos h1, if_pos h1]
  · rw [if_neg h1, if_neg h1]
    by_cases h2 : n ∈ st.branches
    · rw [if_pos h2, if_pos h2]
    · rw [if_neg h2, if_neg h2]

theorem checkoutBranch_commits (st : RepoState) (name : String) :
    (checkoutBranch st name).commits = st.commits := by
  unfold checkoutBranch
  split_ifs <;> rfl

theorem checkoutBranch_headManifest (st : RepoState) (name : String) :
    (checkoutBranch st name).headManifest = st.headManifest := by
  unfold checkoutBranch
  split_ifs <;> rfl

theorem checkoutBranch_workManifest (st : RepoState) (name : String) :
    (checkoutBranch st name).workManifest = st.workManifest := by
  unfold checkoutBranch
  split_ifs <;> rfl

/-- Scenario-A style finding used for concrete fix-attempt runs. -/
def lodashVuln : Vuln :=
  ⟨"SNYK-JS-LODASH-590103", "Prototype Pollution", .critical, "lodash",
    "4.17.15", ["4.17.21"], "desc", none, none, none⟩

/-- The diagnosis diagnose builds for `lodashVuln`. -/
def lodashDiagnosis : Diagnosis := mkDiagnosis lodashVuln

/-- A manifest declaring lodash 4.17.15 as a direct dependency. -/
def demoManifest : Manifest := ⟨[("lodash", "4.17.15")], []⟩

/-- A clean repository on main with `demoManifest` committed and checked out. -/
def demoRepo : RepoState := ⟨["main"], "main", demoManifest, demoManifest, false, []⟩

/-- C2 counterexample — an exception during the dependency install (after the
manifest has been rewritten) is NOT followed by a rollback: applyFix reports
failure, but the working tree is left half-patched, with the manifest
showing lodash 4.17.21 while HEAD still has 4.17.15.  Only a failing
`npm test` reaches revertChanges; the outer catch of applyFix merely logs
and returns false. -/
theorem install_exception_leaves_half_patched_tree :
    (applyFix lodashDiagnosis ⟨true, false, true⟩ demoRepo).1 = false ∧
    (applyFix lodashDiagnosis ⟨true, false, true⟩ demoRepo).2.workManifest
      ≠ (applyFix lodashDiagnosis ⟨true, false, true⟩ demoRepo).2.headManifest ∧
    (applyFix lodashDiagnosis ⟨true, false, true⟩ demoRepo).2.workManifest
      = ⟨[("lodash", "4.17.21")], []⟩ := by
  refine ⟨rfl, ?_, rfl⟩
  decide

/-- C2 (amended) — any unexpected exception during the Patched/Verifying
stages is caught: applyFix reports failure (returns false) and nothing is
ever committed, so the attempt never reaches a committed state.  However a
rollback is attempted only for a failing test run: an exception during the
dependency install leaves the patched manifest in the working tree (see the
counterexample). -/
theorem install_exception_fails_without_commit (d : Diagnosis) (env : FixEnv)
    (st : RepoState) (h : env.installOk = false) :
    (applyFix d env st).1 = false ∧
    (applyFix d env st).2.commits = st.commits ∧
    (applyFix d env st).2.headManifest = st.headManifest := by
  unfold applyFix checkoutBranch
  cases hp : parseSuggestedFix d.suggestedFix with
  | none => exact ⟨rfl, rfl, rfl⟩
  | some t =>
    obtain ⟨pkg, oldV, newV⟩ := t
    dsimp only
    rw [h]
    split_ifs <;> simp_all

/-- Witness for the amended C2 theorem at a concrete run. -/
theorem install_exception_fails_without_commit_witness :
    ((⟨true, false, true⟩ : FixEnv).installOk = false) ∧
    ((applyFix lodashDiagnosis ⟨true, false, true⟩ demoRepo).1 = false ∧
     (applyFix lodashDiagnosis ⟨true, false, true⟩ demoRepo).2.commits = demoRepo.commits ∧
     (applyFix lodashDiagnosis ⟨true, false, true⟩ demoRepo).2.headManifest = demoRepo.headManifest) :=
  ⟨rfl, install_exception_fails_without_commit lodashDiagnosis ⟨true, false, true⟩ demoRepo rfl⟩

/-- C3 — if the verification run (`npm test`) fails after the patch is
applied, applyFix discards all working-tree changes via
GitManager.revertChanges (`git checkout .` plus `git clean -fd`) and returns
failure: starting from a clean tree, the resulting working manifest is the
original manifest (no trace of the attempted version change), no untracked
artifacts remain, and nothing was committed. -/
theorem test_failure_rolls_back_manifest (d : Diagnosis) (env : FixEnv)
    (st : RepoState) (hInstall : env.installOk = true) (hTest : env.testOk = false)
    (hClean : st.workManifest = st.headManifest) (hUn : st.untracked = false) :
    (applyFix d env st).1 = false ∧
    (applyFix d env st).2.workManifest = st.workManifest ∧
    (applyFix d env st).2.untracked = false ∧
    (applyFix d env st).2.commits = st.commits := by
  unfold applyFix checkoutBranch revertChanges
  cases hp : parseSuggestedFix d.suggestedFix with
  | none => exact ⟨rfl, rfl, hUn, rfl⟩
  | some t =>
    obtain ⟨pkg, oldV, newV⟩ := t
    dsimp only
    rw [hInstall, hTest]
    split_ifs <;> simp_all

/-- Witness for C3: a failing test run on the concrete lodash fix attempt
restores the original manifest. -/
theorem test_failure_rolls_back_manifest_witness :
    ((⟨true, true, false⟩ : FixEnv).installOk = true ∧
     (⟨true, true, false⟩ : FixEnv).testOk = false ∧
     demoRepo.workManifest = demoRepo.headManifest ∧
     demoRepo.untracked = false) ∧
    ((applyFix lodashDiagnosis ⟨true, true, false⟩ demoRepo).1 = false ∧
     (applyFix lodashDiagnosis ⟨true, true, false⟩ demoRepo).2.workManifest = demoRepo.workManifest ∧
     (applyFix lodashDiagnosis ⟨true, true, false⟩ demoRepo).2.untracked = false ∧
     (applyFix lodashDiagnosis ⟨true, true, false⟩ demoRepo).2.commits = demoRepo.commits) :=
  ⟨⟨rfl, rfl, rfl, rfl⟩,
    test_failure_rolls_back_manifest lodashDiagnosis ⟨true, true, false⟩ demoRepo rfl rfl rfl rfl⟩

/-! DAST merge: mergeDastResults in src/agents/watchman/index.ts. -/

/-- Summary block `{total, critical, high, medium, low}`. -/
structure Summary where
  total : Nat
  critical : Nat
  high : Nat
  medium : Nat
  low : Nat
deriving DecidableEq, Repr

/-- The summary recomputation performed by mergeDastResults:
`vulnerabilities.length` and one `filter(...).length` per tier. -/
def computeSummary (l : List Vuln) : Summary :=
  { total := l.length
    critical := (l.filter fun v => decide (v.severity = .critical)).length
    high := (l.filter fun v => decide (v.severity = .high)).length
    medium := (l.filter fun v => decide (v.severity = .medium)).length
    low := (l.filter fun v => decide (v.severity = .low)).length }

/-- The ScanResult assembled by mergeDastResults (the fields it populates). -/
structure DastReport where
  timestamp : String
  vulnerabilities : List Vuln
  summary : Summary
  scanner : String
  projectPath : String
  scanMode : String
  nmapEnabled : Bool
  metasploitEnabled : Bool
  nmapFindings : Nat
  metasploitFindings : Nat
deriving DecidableEq, Repr

/-- The vulnerability list of an optional scan result:
`results?.vulnerabilities || []` (an array is always truthy). -/
def optVulns : Option DastReport → List Vuln
  | none => []
  | some r => r.vulnerabilities

/-- mergeDastResults: null when both scanners produced nothing, otherwise the
concatenation of the two finding lists with a summary recomputed from the
merged list (none of the input summaries is consulted). -/
def mergeDastResults (nmapResults metasploitResults : Option DastReport)
    (targetUrl ts : String) : Option DastReport :=
  if nmapResults.isNone && metasploitResults.isNone then none
  else
    let vulnerabilities := optVulns nmapResults ++ optVulns metasploitResults
    some
      { timestamp := ts
        vulnerabilities := vulnerabilities
        summary := computeSummary vulnerabilities
        scanner := "nmap"
        projectPath := targetUrl
        scanMode := "dast"
        nmapEnabled := nmapResults.isSome
        metasploitEnabled := metasploitResults.isSome
        nmapFindings := (optVulns nmapResults).length
        metasploitFindings := (optVulns metasploitResults).length }

/-- C7 — whenever the DAST merge produces a report, its finding list is
exactly the concatenation of the network-scanner and exploit-scanner lists
(no deduplication, so two findings referencing the same host and port are
both retained), and its summary is recomputed from the merged list: total is
the merged length and each tier count is the number of merged findings at
that tier — never inherited from either input summary. -/
theorem merge_concatenates_and_recomputes_summary
    (nmapResults metasploitResults : Option DastReport) (targetUrl ts : String)
    (r : DastReport)
    (h : mergeDastResults nmapResults metasploitResults targetUrl ts = some r) :
    r.vulnerabilities = optVulns nmapResults ++ optVulns metasploitResults ∧
    r.summary.total = (optVulns nmapResults ++ optVulns metasploitResults).length ∧
    r.summary.critical = ((optVulns nmapResults ++ optVulns metasploitResults).filter
      fun v => decide (v.severity = .critical)).length ∧
    r.summary.high = ((optVulns nmapResults ++ optVulns metasploitResults).filter
      fun v => decide (v.severity = .high)).length ∧
    r.summary.medium = ((optVulns nmapResults ++ optVulns metasploitResults).filter
      fun v => decide (v.severity = .medium)).length ∧
    r.summary.low = ((optVulns nmapResults ++ optVulns metasploitResults).filter
      fun v => decide (v.severity = .low)).length := by
  unfold mergeDastResults at h
  by_cases hn : nmapResults.isNone && metasploitResults.isNone
  · rw [if_pos hn] at h
    exact absurd h (by simp)
  · rw [if_neg hn] at h
    have hr := (Option.some_inj.mp h).symm
    subst hr
    exact ⟨rfl, rfl, rfl, rfl, rfl, rfl⟩

/-- A network finding and an exploit-validation finding on the same host and
port (the nmap side). -/
def nmapPortFinding : Vuln :=
  ⟨"NMAP-3306", "Exposed MySQL port", .high, "mysql", "8.0", [], "open port",
    none, some "10.0.0.5", some 3306⟩

/-- The exploit-validation finding referencing the same host and port. -/
def msfPortFinding : Vuln :=
  ⟨"MSF-3306", "MySQL auth bypass validated", .critical, "mysql", "8.0", [],
    "exploit validated", none, some "10.0.0.5", some 3306⟩

/-- A one-finding nmap report whose own summary is deliberately wrong, to
show the merge never inherits it. -/
def nmapDemoReport : DastReport :=
  ⟨"t0", [nmapPortFinding], ⟨99, 99, 99, 99, 99⟩, "nmap", "u", "dast",
    true, false, 1, 0⟩

/-- A one-finding metasploit report with an equally wrong summary. -/
def msfDemoReport : DastReport :=
  ⟨"t1", [msfPortFinding], ⟨50, 50, 50, 50, 50⟩, "metasploit", "u", "dast",
    false, true, 0, 1⟩

/-- Witness for C7 at a concrete merge: both same-host same-port findings are
retained and the summary comes from the merged list, not from the (wrong)
input summaries. -/
theorem merge_concatenates_witness :
    mergeDastResults (some nmapDemoReport) (some msfDemoReport) "u" "t2" =
      some ⟨"t2", [nmapPortFinding, msfPortFinding], ⟨2, 1, 1, 0, 0⟩, "nmap",
        "u", "dast", true, true, 1, 1⟩ ∧
    ((⟨"t2", [nmapPortFinding, msfPortFinding], ⟨2, 1, 1, 0, 0⟩, "nmap",
        "u", "dast", true, true, 1, 1⟩ : DastReport).vulnerabilities =
      optVulns (some nmapDemoReport) ++ optVulns (some msfDemoReport) ∧
     (⟨2, 1, 1, 0, 0⟩ : Summary).total =
      (optVulns (some nmapDemoReport) ++ optVulns (some msfDemoReport)).length ∧
     (⟨2, 1, 1, 0, 0⟩ : Summary).critical =
      ((optVulns (some nmapDemoReport) ++ optVulns (some msfDemoReport)).filter
        fun v => decide (v.severity = .critical)).length ∧
     (⟨2, 1, 1, 0, 0⟩ : Summary).high =
      ((optVulns (some nmapDemoReport) ++ optVulns (some msfDemoReport)).filter
        fun v => decide (v.severity = .high)).length ∧
     (⟨2, 1, 1, 0, 0⟩ : Summary).medium =
      ((optVulns (some nmapDemoReport) ++ optVulns (some msfDemoReport)).filter
        fun v => decide (v.severity = .medium)).length ∧
     (⟨2, 1, 1, 0, 0⟩ : Summary).low =
      ((optVulns (some nmapDemoReport) ++ optVulns (some msfDemoReport)).filter
        fun v => decide (v.severity = .low)).length) :=
  ⟨rfl, merge_concatenates_and_recomputes_summary (some nmapDemoReport)
    (some msfDemoReport) "u" "t2" _ rfl⟩

/-! Detector layer: SnykScanner (src/agents/watchman/snyk.ts),
NpmAuditScanner (src/agents/watchman/npm-audit.ts) and runSecurityScan
(src/orchestrator.ts).  Scan results live in the dynamically-typed world of
parsed JSON, so every field that can be `undefined` at runtime is an Option;
JavaScript string truthiness (undefined and the empty string are falsy) is
modelled explicitly. -/

/-- String.prototype.toLowerCase restricted to the ASCII severities that
occur here. -/
def lowerStr (s : String) : String := String.mk (s.data.map Char.toLower)

/-- JavaScript `s || dflt` for an optional string: undefined and the empty
string are falsy. -/
def strOr (o : Option String) (dflt : String) : String :=
  match o with
  | none => dflt
  | some s => if s = "" then dflt else s

/-- JavaScript truthiness of an optional string field. -/
def truthyStr : Option String → Bool
  | none => false
  | some s => !(s == "")

/-- Runtime shape of one vulnerability as validated and serialized (every
field may be absent in the parsed JSON). -/
structure RawVuln where
  id : Option String
  title : Option String
  severity : Option String
  packageName : Option String
  version : Option String
  fixedIn : Option (List String)
  description : Option String
  cvssScore : Option ℚ
deriving DecidableEq, Repr

/-- Runtime shape of the summary block (fields checked with
`typeof === number`). -/
structure RawSummary where
  total : Option ℚ
  critical : Option ℚ
  high : Option ℚ
  medium : Option ℚ
  low : Option ℚ
deriving DecidableEq, Repr

/-- Runtime shape of the optional metadata block. -/
structure RawMetadata where
  scanDuration : Option ℚ
  retryCount : Option ℚ
  errors : Option (List String)
deriving DecidableEq, Repr

/-- Runtime shape of a ScanResult. -/
structure RawScanResult where
  timestamp : Option String
  vulnerabilities : List RawVuln
  summary : Option RawSummary
  metadata : Option RawMetadata
deriving DecidableEq, Repr

/-- The forEach validation loop of SnykScanner.validateScanResult: required
fields must be truthy and the severity must be one of the four enumerated
values; the first offending index raises. -/
def validateVulns : Nat → List RawVuln → Except String Unit
  | _, [] => .ok ()
  | i, v :: rest =>
    if !(truthyStr v.id && truthyStr v.title && truthyStr v.severity &&
        truthyStr v.packageName && truthyStr v.version) then
      .error ("Vulnerability at index " ++ toString i ++ " is missing required fields")
    else
      let s := v.severity.getD ""
      if s = "low" ∨ s = "medium" ∨ s = "high" ∨ s = "critical" then
        validateVulns (i + 1) rest
      else .error ("Invalid severity " ++ s ++ " at index " ++ toString i)

/-- SnykScanner.validateScanResult: timestamp present and truthy, summary
present with the five numeric fields, then the per-vulnerability loop.  Note
that no consistency between the summary counts and the vulnerability list is
checked. -/
def validateScanResult (r : RawScanResult) : Except String Unit :=
  if !truthyStr r.timestamp then .error "Invalid or missing timestamp"
  else
    match r.summary with
    | none => .error "Invalid or missing summary"
    | some s =>
      if s.total.isNone then .error "Summary field total must be a number"
      else if s.critical.isNone then .error "Summary field critical must be a number"
      else if s.high.isNone then .error "Summary field high must be a number"
      else if s.medium.isNone then .error "Summary field medium must be a number"
      else if s.low.isNone then .error "Summary field low must be a number"
      else validateVulns 0 r.vulnerabilities

/-- JSON documents, the shape produced by JSON.stringify and recovered by
JSON.parse.  Serialized text is modelled by this AST: JSON.parse composed
with JSON.stringify is the identity on it, and `undefined` fields are
dropped by stringify, hence never appear as entries. -/
inductive Json where
  | str (s : String)
  | num (q : ℚ)
  | bool (b : Bool)
  | arr (elems : List Json)
  | obj (fields : List (String × Json))

/-- Object entry for an optional field: JSON.stringify drops keys whose
value is undefined. -/
def optEntry (k : String) : Option Json → List (String × Json)
  | none => []
  | some j => [(k, j)]

/-- First-match key lookup in a JSON object. -/
def jlookup : List (String × Json) → String → Option Json
  | [], _ => none
  | (k, v) :: rest, key => if k = key then some v else jlookup rest key

/-- Read a string value. -/
def asStr : Json → Option String
  | .str s => some s
  | _ => none

/-- Read a number value. -/
def asNum : Json → Option ℚ
  | .num q => some q
  | _ => none

/-- Read an array of strings. -/
def strListOfJson : List Json → Option (List String)
  | [] => some []
  | .str s :: rest => (strListOfJson rest).map (s :: ·)
  | _ => none

/-- Read an optional string-array value. -/
def asStrList : Json → Option (List String)
  | .arr es => strListOfJson es
  | _ => none

/-- Optional string field of a JSON object. -/
def getStr (fields : List (String × Json)) (k : String) : Option String :=
  (jlookup fields k).bind asStr

/-- Optional number field of a JSON object. -/
def getNum (fields : List (String × Json)) (k : String) : Option ℚ :=
  (jlookup fields k).bind asNum

/-- Optional string-list field of a JSON object. -/
def getStrList (fields : List (String × Json)) (k : String) : Option (List String) :=
  (jlookup fields k).bind asStrList

/-- Serialization of one vulnerability (fields in interface order, undefined
fields dropped). -/
def encodeRawVuln (v : RawVuln) : Json :=
  .obj (optEntry "id" (v.id.map .str) ++ optEntry "title" (v.title.map .str) ++
    optEntry "severity" (v.severity.map .str) ++
    optEntry "packageName" (v.packageName.map .str) ++
    optEntry "version" (v.version.map .str) ++
    optEntry "fixedIn" (v.fixedIn.map fun l => .arr (l.map .str)) ++
    optEntry "description" (v.description.map .str) ++
    optEntry "cvssScore" (v.cvssScore.map .num))

/-- Parse one vulnerability back from JSON. -/
def decodeRawVuln : Json → Option RawVuln
  | .obj fs => some
      { id := getStr fs "id"
        title := getStr fs "title"
        severity := getStr fs "severity"
        packageName := getStr fs "packageName"
        version := getStr fs "version"
        fixedIn := getStrList fs "fixedIn"
        description := getStr fs "description"
        cvssScore := getNum fs "cvssScore" }
  | _ => none

/-- Serialization of the summary block. -/
def encodeRawSummary (s : RawSummary) : Json :=
  .obj (optEntry "total" (s.total.map .num) ++ optEntry "critical" (s.critical.map .num) ++
    optEntry "high" (s.high.map .num) ++ optEntry "medium" (s.medium.map .num) ++
    optEntry "low" (s.low.map .num))

/-- Parse the summary block. -/
def decodeRawSummary : Json → Option RawSummary
  | .obj fs => some
      { total := getNum fs "total"
        critical := getNum fs "critical"
        high := getNum fs "high"
        medium := getNum fs "medium"
        low := getNum fs "low" }
  | _ => none

/-- Serialization of the metadata block. -/
def encodeRawMetadata (m : RawMetadata) : Json :=
  .obj (optEntry "scanDuration" (m.scanDuration.map .num) ++
    optEntry "retryCount" (m.retryCount.map .num) ++
    optEntry "errors" (m.errors.map fun l => .arr (l.map .str)))

/-- Parse the metadata block. -/
def decodeRawMetadata : Json → Option RawMetadata
  | .obj fs => some
      { scanDuration := getNum fs "scanDuration"
        retryCount := getNum fs "retryCount"
        errors := getStrList fs "errors" }
  | _ => none

/-- Decode a vulnerability array elementwise. -/
def decodeVulnList : List Json → Option (List RawVuln)
  | [] => some []
  | j :: rest => do
      let v ← decodeRawVuln j
      let vs ← decodeVulnList rest
      pure (v :: vs)

/-- Serialization of a full ScanResult (field order of the object literal in
parseSnykOutput, metadata appended last). -/
def encodeRawScanResult (r : RawScanResult) : Json :=
  .obj (optEntry "timestamp" (r.timestamp.map .str) ++
    [("vulnerabilities", .arr (r.vulnerabilities.map encodeRawVuln))] ++
    optEntry "summary" (r.summary.map encodeRawSummary) ++
    optEntry "metadata" (r.metadata.map encodeRawMetadata))

/-- Parse a full ScanResult. -/
def decodeRawScanResult : Json → Option RawScanResult
  | .obj fs =>
      match jlookup fs "vulnerabilities" with
      | some (.arr es) =>
          match decodeVulnList es with
          | some vs => some
              { timestamp := getStr fs "timestamp"
                vulnerabilities := vs
                summary := (jlookup fs "summary").bind decodeRawSummary
                metadata := (jlookup fs "metadata").bind decodeRawMetadata }
          | none => none
      | _ => none
  | _ => none

/-- The scan-results directory: the canonical latest document plus the
timestamp-qualified history. -/
structure ScanStore where
  latest : Option Json
  history : List Json

/-- SnykScanner.saveScanResults: validate, serialize, verify the serialized
document re-parses, then atomically replace the timestamped file and the
canonical scan-results.json (temp file + rename); a validation failure
raises and leaves the store unchanged. -/
def saveScanResults (r : RawScanResult) (store : ScanStore) : Except String ScanStore :=
  match validateScanResult r with
  | .error e => .error e
  | .ok _ =>
      let j := encodeRawScanResult r
      .ok { latest := some j, history := j :: store.history }

theorem jlookup_append (l1 l2 : List (String × Json)) (k : String) :
    jlookup (l1 ++ l2) k = (jlookup l1 k).orElse fun _ => jlookup l2 k := by
  induction l1 with
  | nil => rfl
  | cons p rest ih =>
    obtain ⟨k1, v1⟩ := p
    by_cases h : k1 = k
    · simp [jlookup, h]
    · simp [jlookup, h, ih]

theorem jlookup_optEntry_self (k : String) (v : Option Json) :
    jlookup (optEntry k v) k = v := by
  cases v <;> simp [optEntry, jlookup]

theorem jlookup_optEntry_ne (k k2 : String) (v : Option Json) (h : k ≠ k2) :
    jlookup (optEntry k v) k2 = none := by
  cases v <;> simp [optEntry, jlookup, h]

theorem map_str_bind_asStr (o : Option String) : (o.map Json.str).bind asStr = o := by
  cases o <;> rfl

theorem map_num_bind_asNum (o : Option ℚ) : (o.map Json.num).bind asNum = o := by
  cases o <;> rfl

theorem strListOfJson_map (l : List String) : strListOfJson (l.map .str) = some l := by
  induction l with
  | nil => rfl
  | cons s rest ih => simp [strListOfJson, ih]

theorem map_arr_bind_asStrList (o : Option (List String)) :
    (o.map (fun l => Json.arr (l.map .str))).bind asStrList = o := by
  cases o <;> simp [asStrList, strListOfJson_map]

theorem none_orElse_fun {α : Type} (f : Unit → Option α) :
    (Option.orElse none f) = f () := rfl

theorem orElse_fun_none {α : Type} (o : Option α) :
    (Option.orElse o fun _ => none) = o := by
  cases o <;> rfl

theorem decode_encode_vuln (v : RawVuln) : decodeRawVuln (encodeRawVuln v) = some v := by
  unfold encodeRawVuln decodeRawVuln
  simp only [getStr, getNum, getStrList, jlookup_append, jlookup_optEntry_self,
    jlookup_optEntry_ne, ne_eq, String.reduceEq, not_false_eq_true,
    none_orElse_fun, orElse_fun_none, map_str_bind_asStr, map_num_bind_asNum,
    map_arr_bind_asStrList]

theorem decode_encode_summary (s : RawSummary) :
    decodeRawSummary (encodeRawSummary s) = some s := by
  unfold encodeRawSummary decodeRawSummary
  simp only [getNum, jlookup_append, jlookup_optEntry_self, jlookup_optEntry_ne,
    ne_eq, String.reduceEq, not_false_eq_true, none_orElse_fun, orElse_fun_none,
    map_num_bind_asNum]

theorem decode_encode_metadata (m : RawMetadata) :
    decodeRawMetadata (encodeRawMetadata m) = some m := by
  unfold encodeRawMetadata decodeRawMetadata
  simp only [getNum, getStrList, jlookup_append, jlookup_optEntry_self,
    jlookup_optEntry_ne, ne_eq, String.reduceEq, not_false_eq_true,
    none_orElse_fun, orElse_fun_none, map_num_bind_asNum, map_arr_bind_asStrList]

theorem decodeVulnList_map (l : List RawVuln) :
    decodeVulnList (l.map encodeRawVuln) = some l := by
  induction l with
  | nil => rfl
  | cons v rest ih => simp [decodeVulnList, decode_encode_vuln, ih]

theorem map_encode_bind_decode_summary (o : Option RawSummary) :
    (o.map encodeRawSummary).bind decodeRawSummary = o := by
  cases o with
  | none => rfl
  | some s => simp [decode_encode_summary]

theorem map_encode_bind_decode_metadata (o : Option RawMetadata) :
    (o.map encodeRawMetadata).bind decodeRawMetadata = o := by
  cases o with
  | none => rfl
  | some m => simp [decode_encode_metadata]

theorem decode_encode_scan (r : RawScanResult) :
    decodeRawScanResult (encodeRawScanResult r) = some r := by
  obtain ⟨ts, vulns, sum, md⟩ := r
  unfold encodeRawScanResult decodeRawScanResult
  cases ts <;>
    simp [getStr, jlookup_append, jlookup_optEntry_self, jlookup_optEntry_ne,
      jlookup, none_orElse_fun, orElse_fun_none, asStr,
      map_encode_bind_decode_summary, map_encode_bind_decode_metadata,
      decodeVulnList_map]

/-- C8 — round trip through the atomic save: for every ScanReport accepted
by validateScanResult, saveScanResults succeeds, stores the serialized
document as the canonical latest scan, and re-reading and parsing that
document yields a structure identical field-for-field to the in-memory
value that was written. -/
theorem atomic_save_round_trip (r : RawScanResult) (store : ScanStore)
    (h : validateScanResult r = .ok ()) :
    ∃ store2, saveScanResults r store = .ok store2 ∧
      store2.latest = some (encodeRawScanResult r) ∧
      store2.latest.bind decodeRawScanResult = some r := by
  refine ⟨{ latest := some (encodeRawScanResult r), history := encodeRawScanResult r :: store.history }, ?_, rfl, ?_⟩
  · unfold saveScanResults
    rw [h]
  · simp [decode_encode_scan]

/-- Witness for C8 at a concrete valid ScanReport with a vulnerability, an
absent description (an undefined field dropped by stringify), and metadata. -/
theorem atomic_save_round_trip_witness :
    validateScanResult
        ⟨some "2026-02-03T00:00:00Z",
          [⟨some "SNYK-1", some "Prototype Pollution", some "critical",
            some "lodash", some "4.17.15", some ["4.17.21"], none, some 9⟩],
          some ⟨some 1, some 1, some 0, some 0, some 0⟩,
          some ⟨some 1200, some 0, none⟩⟩ = .ok () ∧
    (∃ store2,
      saveScanResults
          ⟨some "2026-02-03T00:00:00Z",
            [⟨some "SNYK-1", some "Prototype Pollution", some "critical",
              some "lodash", some "4.17.15", some ["4.17.21"], none, some 9⟩],
            some ⟨some 1, some 1, some 0, some 0, some 0⟩,
            some ⟨some 1200, some 0, none⟩⟩ ⟨none, []⟩ = .ok store2 ∧
      store2.latest = some (encodeRawScanResult
          ⟨some "2026-02-03T00:00:00Z",
            [⟨some "SNYK-1", some "Prototype Pollution", some "critical",
              some "lodash", some "4.17.15", some ["4.17.21"], none, some 9⟩],
            some ⟨some 1, some 1, some 0, some 0, some 0⟩,
            some ⟨some 1200, some 0, none⟩⟩) ∧
      store2.latest.bind decodeRawScanResult = some
          ⟨some "2026-02-03T00:00:00Z",
            [⟨some "SNYK-1", some "Prototype Pollution", some "critical",
              some "lodash", some "4.17.15", some ["4.17.21"], none, some 9⟩],
            some ⟨some 1, some 1, some 0, some 0, some 0⟩,
            some ⟨some 1200, some 0, none⟩⟩) :=
  ⟨rfl, atomic_save_round_trip _ ⟨none, []⟩ rfl⟩

/-- One snyk JSON vulnerability entry as consumed by parseSnykOutput (every
field may be absent). -/
structure SnykVulnEntry where
  id : Option String
  cvssv3 : Option String
  title : Option String
  severity : Option String
  packageName : Option String
  name : Option String
  version : Option String
  fixedIn : Option (List String)
  description : Option String
  cvssScore : Option ℚ
deriving DecidableEq, Repr

/-- Count of parsed vulnerabilities carrying a given severity string. -/
def countSevStr (vulns : List RawVuln) (s : String) : Nat :=
  (vulns.filter fun v => decide (v.severity = some s)).length

/-- The summary accumulated by the parse loops (`summary.total++` for every
vulnerability and `summary[severity]++` per enumerated tier; a severity
outside the four enumerated keys increments none of them). -/
def rawSummaryOf (vulns : List RawVuln) : RawSummary :=
  ⟨some (vulns.length : ℚ), some (countSevStr vulns "critical" : ℚ),
    some (countSevStr vulns "high" : ℚ), some (countSevStr vulns "medium" : ℚ),
    some (countSevStr vulns "low" : ℚ)⟩

/-- SnykScanner.parseSnykOutput: normalize each entry with `||` fallbacks
(`vuln.id || vuln.CVSSv3 || "unknown"` and so on), lowercase the severity,
and accumulate the summary.  No metadata yet — test() adds it afterwards. -/
def parseSnykOutput (entries : List SnykVulnEntry) (ts : String) : RawScanResult :=
  let vulns := entries.map fun v =>
    ({ id := some (strOr v.id (strOr v.cvssv3 "unknown"))
       title := some (strOr v.title "Unknown vulnerability")
       severity := some (lowerStr (strOr v.severity "low"))
       packageName := some (strOr v.packageName (strOr v.name "unknown"))
       version := some (strOr v.version "unknown")
       fixedIn := some (v.fixedIn.getD [])
       description := v.description
       cvssScore := v.cvssScore } : RawVuln)
  ⟨some ts, vulns, some (rawSummaryOf vulns), none⟩

/-- Outcome of one `snyk test --json` subprocess invocation: success with
parsed entries, a transient failure (timeout kill or network error — the
retry-eligible class), or a fatal failure. -/
inductive SnykAttempt where
  | success (entries : List SnykVulnEntry)
  | transient
  | fatal
deriving DecidableEq, Repr

/-- SnykScanner.retryWithBackoff: retry only transient failures while
`attempt < maxRetries`, rethrow otherwise.  `behave n` is the outcome of the
n-th attempt (attempts are numbered from 1, as in the source); the fuel
argument makes the recursion structural and is called with maxRetries + 1,
which the `attempt < maxRetries` guard never exhausts. -/
def retryWithBackoff (behave : Nat → SnykAttempt) (maxRetries : Nat) :
    Nat → Nat → Except String (List SnykVulnEntry)
  | 0, _ => .error "Snyk scan timed out"
  | fuel + 1, attempt =>
    match behave attempt with
    | .success es => .ok es
    | .fatal => .error "Snyk scan failed with a fatal error"
    | .transient =>
      if attempt < maxRetries then retryWithBackoff behave maxRetries fuel (attempt + 1)
      else .error "Snyk scan timed out"

/-- The error-state result test() saves when the scan fails: empty findings,
zeroed summary, and metadata carrying the error list and the (never
incremented) retryCount counter. -/
def fallbackResult (ts : String) (dur : ℚ) (errs : List String) : RawScanResult :=
  ⟨some ts, [], some ⟨some 0, some 0, some 0, some 0, some 0⟩,
    some ⟨some dur, some 0, some errs⟩⟩

/-- SnykScanner.test: check the CLI, run the scan with retry, parse, save
(validating), then attach metadata.  The local `retryCount` variable of the
source is initialized to 0 and never incremented, so the metadata always
carries `retryCount = 0`; on the success path no error was pushed, so
`errors.length > 0 ? errors : undefined` is undefined.  The result is the
thrown-or-returned value paired with the resulting scan store. -/
def snykTest (behave : Nat → SnykAttempt) (versionOk : Bool) (maxRetries : Nat)
    (ts : String) (dur : ℚ) (store : ScanStore) :
    Except String RawScanResult × ScanStore :=
  if !versionOk then (.error "Snyk CLI not found or not responding", store)
  else
    match retryWithBackoff behave maxRetries (maxRetries + 1) 1 with
    | .ok entries =>
        let r := parseSnykOutput entries ts
        match saveScanResults r store with
        | .ok store2 =>
            (.ok { r with metadata := some ⟨some dur, some 0, none⟩ }, store2)
        | .error e =>
            match saveScanResults (fallbackResult ts dur ["Snyk scan failed: " ++ e]) store with
            | .ok store3 => (.error ("Snyk scan failed: " ++ e), store3)
            | .error _ => (.error ("Snyk scan failed: " ++ e), store)
    | .error e =>
        match saveScanResults (fallbackResult ts dur ["Snyk scan failed: " ++ e]) store with
        | .ok store3 => (.error ("Snyk scan failed: " ++ e), store3)
        | .error _ => (.error ("Snyk scan failed: " ++ e), store)

/-- One entry of the npm audit `vulnerabilities` map `via` array: either a
bare package-name string or an advisory object (whose title may be absent). -/
inductive NpmViaEntry where
  | strVia (s : String)
  | objVia (source : Option Nat) (title : Option String)
deriving DecidableEq, Repr

/-- One entry of the npm audit `vulnerabilities` map. -/
structure NpmAuditEntry where
  key : String
  severity : Option String
  name : Option String
  range : Option String
  fixAvailable : Bool
  via : List NpmViaEntry
deriving DecidableEq, Repr

/-- NpmAuditScanner.parseSeverity: lowercase, look up SEVERITY_MAPPING,
default medium. -/
def npmParseSeverity (o : Option String) : String :=
  let n := lowerStr (strOr o "low")
  if n = "critical" then "critical"
  else if n = "high" then "high"
  else if n = "moderate" then "medium"
  else if n = "medium" then "medium"
  else if n = "low" then "low"
  else if n = "info" then "low"
  else "medium"

/-- The id suffix `vuln.via?.[0]?.source || "audit"` (a numeric source is
interpolated; 0 and undefined are falsy). -/
def viaSourceStr (via : List NpmViaEntry) : String :=
  match via.head? with
  | some (.objVia (some n) _) => if n = 0 then "audit" else toString n
  | _ => "audit"

/-- The title `typeof via?.[0] === "object" ? via[0].title : <default>`; an
advisory object without a title yields undefined. -/
def viaTitle (via : List NpmViaEntry) : Option String :=
  match via.head? with
  | some (.objVia _ t) => t
  | _ => some "Vulnerability found via npm audit"

/-- NpmAuditScanner.formatVulnerabilities. -/
def npmFormatVulnerabilities (entries : List NpmAuditEntry) : List RawVuln :=
  entries.map fun e =>
    { id := some ("NPM-" ++ e.key ++ "-" ++ viaSourceStr e.via)
      title := viaTitle e.via
      severity := some (npmParseSeverity e.severity)
      packageName := e.name
      version := some (strOr e.range "unknown")
      fixedIn := some (if e.fixAvailable then ["npm audit fix"] else [])
      description := some ("Dependency path: " ++ e.key)
      cvssScore := none }

/-- NpmAuditScanner.parseAuditOutput, the whole of what scan() returns: the
formatted vulnerabilities and an accumulated summary.  No call to any
validation routine appears anywhere in this scanner. -/
def npmParseAuditOutput (entries : List NpmAuditEntry) (ts : String) : RawScanResult :=
  ⟨some ts, npmFormatVulnerabilities entries,
    some (rawSummaryOf (npmFormatVulnerabilities entries)), none⟩

/-- The `--scanner` option of the orchestrator. -/
inductive ScannerChoice where
  | snyk
  | npmAudit
  | all
deriving DecidableEq, Repr

/-- runSecurityScan from src/orchestrator.ts, parameterized by the outcomes
of the two scanner calls; the Bool records whether the npm-audit scanner was
invoked.  A user-selected npm-audit runs it directly; otherwise snyk runs
first and npm-audit only on snyk failure; both failing yields the combined
error. -/
def runSecurityScan (choice : ScannerChoice)
    (snykRes : Except String RawScanResult)
    (npmRes : Except String RawScanResult) :
    Except String RawScanResult × Bool :=
  match choice with
  | .npmAudit => (npmRes, true)
  | .snyk | .all =>
    match snykRes with
    | .ok r => (.ok r, false)
    | .error _ =>
      match npmRes with
      | .ok r => (.ok r, true)
      | .error _ => (.error "All scanners failed. Please check your environment.", true)

theorem validate_ignores_metadata (r : RawScanResult) (m : Option RawMetadata) :
    validateScanResult { r with metadata := m } = validateScanResult r := rfl

/-- C4 (amended) — every ScanReport the snyk path returns has passed
SnykScanner.validateScanResult (required fields truthy, severity in the
enumerated set) before being returned, because saveScanResults validates and
a validation failure propagates as a thrown error; moreover its summary is
consistent by construction (recomputed from the parsed list).  Reports from
the npm-audit fallback carry no such guarantee (see the counterexample),
and validateScanResult itself never checks count consistency. -/
theorem snyk_path_reports_validated (behave : Nat → SnykAttempt)
    (versionOk : Bool) (maxRetries : Nat) (ts : String) (dur : ℚ)
    (store : ScanStore) (r : RawScanResult) (store2 : ScanStore)
    (h : snykTest behave versionOk maxRetries ts dur store = (.ok r, store2)) :
    validateScanResult r = .ok () ∧
    r.summary = some (rawSummaryOf r.vulnerabilities) := by
  unfold snykTest at h
  cases hvb : versionOk with
  | false => rw [hvb] at h; simp at h
  | true =>
    rw [hvb] at h
    rw [if_neg (by simp)] at h
    cases hr : retryWithBackoff behave maxRetries (maxRetries + 1) 1 with
    | error e =>
      rw [hr] at h
      dsimp only at h
      cases hs : saveScanResults (fallbackResult ts dur ["Snyk scan failed: " ++ e]) store with
      | ok store3 => rw [hs] at h; simp at h
      | error e2 => rw [hs] at h; simp at h
    | ok entries =>
      rw [hr] at h
      dsimp only at h
      cases hs : saveScanResults (parseSnykOutput entries ts) store with
      | error e =>
        rw [hs] at h
        dsimp only at h
        cases hs2 : saveScanResults (fallbackResult ts dur ["Snyk scan failed: " ++ e]) store with
        | ok store3 => rw [hs2] at h; simp at h
        | error e2 => rw [hs2] at h; simp at h
      | ok store3 =>
        rw [hs] at h
        dsimp only at h
        have hr2 : ({ parseSnykOutput entries ts with
            metadata := some ⟨some dur, some 0, none⟩ } : RawScanResult) = r := by
          have := congrArg Prod.fst h
          simpa using this
        have hval : validateScanResult (parseSnykOutput entries ts) = .ok () := by
          unfold saveScanResults at hs
          cases hv : validateScanResult (parseSnykOutput entries ts) with
          | error e => rw [hv] at hs; simp at hs
          | ok u => cases u; rfl
        subst hr2
        refine ⟨?_, rfl⟩
        rw [validate_ignores_metadata]
        exact hval

/-- One well-formed snyk entry (severity arrives uppercase and is
lowercased by the parser). -/
def demoSnykEntry : SnykVulnEntry :=
  ⟨some "SNYK-1", none, some "T", some "High", some "lodash", none,
    some "4.17.15", some ["4.17.21"], none, none⟩

/-- Scanner behaviour of Scenario E: timeout on attempts 1 and 2, success on
attempt 3. -/
def flakyBehave : Nat → SnykAttempt :=
  fun attempt => if attempt ≤ 2 then .transient else .success [demoSnykEntry]

/-- The report the flaky run returns (metadata attached by test()). -/
def demoSnykReport : RawScanResult :=
  { parseSnykOutput [demoSnykEntry] "ts" with
    metadata := some ⟨some 1200, some 0, none⟩ }

/-- The store the flaky run leaves behind. -/
def demoSnykStore : ScanStore :=
  ⟨some (encodeRawScanResult (parseSnykOutput [demoSnykEntry] "ts")),
    [encodeRawScanResult (parseSnykOutput [demoSnykEntry] "ts")]⟩

/-- Witness for the amended C4 theorem: a concrete two-retry-then-success
snyk run whose returned report passes validation with consistent counts. -/
theorem snyk_path_reports_validated_witness :
    snykTest flakyBehave true 3 "ts" 1200 ⟨none, []⟩ = (.ok demoSnykReport, demoSnykStore) ∧
    (validateScanResult demoSnykReport = .ok () ∧
     demoSnykReport.summary = some (rawSummaryOf demoSnykReport.vulnerabilities)) :=
  ⟨rfl, snyk_path_reports_validated flakyBehave true 3 "ts" 1200 ⟨none, []⟩
    demoSnykReport demoSnykStore rfl⟩

/-- C4 counterexample — a ScanReport produced by the fallback npm-audit
scanner is returned by the Detector WITHOUT having passed schema
validation: npm audit output whose first `via` entry is an advisory object
with no title yields a report whose first finding has no title (a required
field), validateScanResult rejects it, yet runSecurityScan hands it on
unvalidated and raises nothing. -/
theorem fallback_report_returned_unvalidated :
    runSecurityScan .snyk (.error "Snyk CLI not found")
        (.ok (npmParseAuditOutput
          [⟨"lodash", some "high", none, some "<4.17.21", true, [.objVia (some 1523) none]⟩] "ts")) =
      (.ok (npmParseAuditOutput
          [⟨"lodash", some "high", none, some "<4.17.21", true, [.objVia (some 1523) none]⟩] "ts"), true) ∧
    validateScanResult (npmParseAuditOutput
          [⟨"lodash", some "high", none, some "<4.17.21", true, [.objVia (some 1523) none]⟩] "ts") =
      .error "Vulnerability at index 0 is missing required fields" ∧
    (npmFormatVulnerabilities
          [⟨"lodash", some "high", none, some "<4.17.21", true, [.objVia (some 1523) none]⟩]).map
        (fun v => v.title) = [none] :=
  ⟨rfl, rfl, rfl⟩

/-- C5 — with the primary scanner timing out on the first two attempts and
succeeding on the third (maxRetries = 3), the Detector does return the
successful report and the fallback scanner is not invoked, but the reported
metadata.retryCount is 0, not 2: the retryCount variable in
SnykScanner.test is never incremented. -/
theorem third_attempt_success_reports_retry_count_zero :
    (snykTest flakyBehave true 3 "ts" 1200 ⟨none, []⟩).1 = .ok demoSnykReport ∧
    demoSnykReport.metadata = some ⟨some 1200, some 0, none⟩ ∧
    runSecurityScan .snyk (snykTest flakyBehave true 3 "ts" 1200 ⟨none, []⟩).1
        (.error "npm audit never ran") = (.ok demoSnykReport, false) :=
  ⟨rfl, rfl, rfl⟩

end Sentinel
